import Mathlib

/-!
# Verification of the idiom-weaver client-side language-identification subsystem

Shallow embedding of `src/services/languageDetectionService.ts` and the
`Language` enumeration of `src/types.ts`.

Modelling conventions:
* JavaScript strings are Lean `String`s / `List Char`; `trim`, `toLowerCase`
  and the regular-expression matching of the source are embedded below.
  `toLowerCase` is modelled per code point over Basic Latin and Latin-1
  (identity elsewhere); every character occurring in the pattern tables and
  in the concrete inputs used below is covered.
* JavaScript numbers are modelled as exact rationals (`ℚ`); the constants of
  the source (`1.5`, `0.3`, ...) appear as the corresponding rationals.
* The regular expressions of the source use only a handful of shapes
  (word alternations bracketed by `\b`, `\w+`/`\w{12,}` with a literal
  suffix, single character classes, plain literals).  They are embedded as
  lists of alternatives over a small atom language, matched with the
  ECMAScript semantics: left-to-right scan, at each position the first
  alternative that succeeds (with backtracking of the greedy `\w` atoms),
  non-overlapping global match counting, `\w = [A-Za-z0-9_]` and `\b` a
  transition between word and non-word code points.
* The network call inside `detectLanguage` is the one external effect; its
  outcome is an explicit parameter (`ApiOutcome`): either a failure
  (transport error, timeout, non-ok status, unextractable payload — the
  source treats all of these identically by falling back to the heuristic)
  or an extracted language-code string.  Functions additionally report how
  many network attempts they performed.
-/

namespace IdiomWeaver

/-- The `Language` enum of `src/types.ts`. -/
inductive Language where
  | English
  | Spanish
  | Vietnamese
  | French
  | German
  | Japanese
  | Portuguese
  | Dutch
deriving DecidableEq, Repr

/-- The eight languages in the insertion order of the `scores` record of
`detectLanguageHeuristic` (`Object.entries`/`Object.values` order). -/
def langs : List Language :=
  [.English, .Spanish, .Vietnamese, .French, .German, .Japanese, .Portuguese, .Dutch]

/-! ## JavaScript character-level semantics -/

/-- The apostrophe character U+0027, used by several patterns of the source
(contractions such as `it's`, French `qu'`). -/
def apos : Char := Char.ofNat 39

/-- Decode a pattern/input literal: `*` stands for the apostrophe U+0027. -/
def deA (s : String) : List Char := s.data.map (fun c => if c = '*' then apos else c)

/-- ECMAScript `\w`: `[A-Za-z0-9_]`. -/
def isWordChar (c : Char) : Bool :=
  (97 ≤ c.toNat && c.toNat ≤ 122) || (65 ≤ c.toNat && c.toNat ≤ 90) ||
  (48 ≤ c.toNat && c.toNat ≤ 57) || c.toNat == 95

/-- ECMAScript WhiteSpace ∪ LineTerminator, the set removed by
`String.prototype.trim`. -/
def isJsWhitespace (c : Char) : Bool :=
  let n := c.toNat
  n == 9 || n == 10 || n == 11 || n == 12 || n == 13 || n == 32 || n == 160 ||
  n == 5760 || (8192 ≤ n && n ≤ 8202) || n == 8232 || n == 8233 || n == 8239 ||
  n == 8287 || n == 12288 || n == 65279

/-- `String.prototype.trim`: remove the maximal whitespace prefix and
suffix. -/
def jsTrim (l : List Char) : List Char :=
  (l.dropWhile isJsWhitespace).rdropWhile isJsWhitespace

/-- Uppercase/lowercase pairs of Basic Latin and Latin-1
(`A`–`Z`, `À`–`Þ` except `×`). -/
def upperLower : List (Char × Char) :=
  ("ABCDEFGHIJKLMNOPQRSTUVWXYZÀÁÂÃÄÅÆÇÈÉÊËÌÍÎÏÐÑÒÓÔÕÖØÙÚÛÜÝÞ".data.zip
   "abcdefghijklmnopqrstuvwxyzàáâãäåæçèéêëìíîïðñòóôõöøùúûüýþ".data)

/-- `String.prototype.toLowerCase`, per code point (identity outside the
table above; lower-case letters, digits, punctuation, CJK and the
Vietnamese lower-case diacritics used in the patterns are unaffected,
matching the source's behaviour on them). -/
def jsToLower (c : Char) : Char :=
  match upperLower.find? (fun p => p.1 = c) with
  | some p => p.2
  | none => c

/-! ## A matcher for the regular-expression shapes of the source -/

/-- One atom of a regular-expression alternative. -/
inductive Atom where
  /-- a literal character sequence -/
  | lit : List Char → Atom
  /-- a single character drawn from a class -/
  | cls : (Char → Bool) → Atom
  /-- `\w{n,}` (greedy, with backtracking); `\w+` is `wrep 1` -/
  | wrep : Nat → Atom
  /-- the zero-width word-boundary assertion `\b` -/
  | wb : Atom

/-- A pattern: an ordered list of alternatives, each a list of atoms. -/
abbrev Pat := List (List Atom)

/-- Is `p` a prefix of `s`?  Returns the remainder on success. -/
def matchLit : List Char → List Char → Option (List Char)
  | [], s => some s
  | _, [] => none
  | p :: ps, c :: cs => if p = c then matchLit ps cs else none

/-- Is the character on the given side of a position a word character
(string edges count as non-word)? -/
def sideIsWord : Option Char → Bool
  | none => false
  | some c => isWordChar c

/-- `\b` holds between `prev` and the head of `s`. -/
def isBoundary (prev : Option Char) (s : List Char) : Bool :=
  sideIsWord prev != sideIsWord s.head?

/-- Length of the maximal prefix of `s` made of `\w` characters. -/
def wordRunLen (s : List Char) : Nat := (s.takeWhile isWordChar).length

/-- Match a list of atoms against a prefix of `s`, `prev` being the character
just before the current position (for `\b`).  Returns the number of
characters consumed.  Greedy `\w{n,}` atoms backtrack: the longest repetition
that lets the rest of the alternative succeed wins.  The fuel argument only
drives the recursion; `atoms.length + 1` is always sufficient since every
recursive call peels off the leading atom. -/
def matchAtoms : Nat → List Atom → Option Char → List Char → Option Nat
  | 0, _, _, _ => none
  | _ + 1, [], _, _ => some 0
  | fuel + 1, Atom.wb :: rest, prev, s =>
      if isBoundary prev s then matchAtoms fuel rest prev s else none
  | fuel + 1, Atom.lit p :: rest, prev, s =>
      match matchLit p s with
      | none => none
      | some s' =>
          let prev' := if p.isEmpty then prev else p.getLast?
          (matchAtoms fuel rest prev' s').map (p.length + ·)
  | fuel + 1, Atom.cls f :: rest, _, s =>
      match s with
      | [] => none
      | c :: cs =>
          if f c then (matchAtoms fuel rest (some c) cs).map (· + 1) else none
  | fuel + 1, Atom.wrep n :: rest, prev, s =>
      let m := wordRunLen s
      -- candidate repetition lengths m, m-1, ..., n (largest first)
      let ks := ((List.range (m + 1)).drop n).reverse
      ks.findSome? (fun k =>
        let prev' := if k = 0 then prev else (s.take k).getLast?
        (matchAtoms fuel rest prev' (s.drop k)).map (k + ·))

/-- Try the alternatives of a pattern, in order, at the current position. -/
def matchPatAt (p : Pat) (prev : Option Char) (s : List Char) : Option Nat :=
  p.findSome? (fun alt => matchAtoms (alt.length + 1) alt prev s)

/-- Number of matches of `text.match(pat)` with the global flag:
left-to-right scan, non-overlapping, first matching alternative at each
position; a zero-length match counts and the scan advances one character
(no pattern below actually admits a zero-length match).  The fuel argument
only drives the recursion; the scan advances at least one character per
step, so `text.length + 1` is always sufficient. -/
def countFrom (p : Pat) : Nat → Option Char → List Char → Nat
  | 0, _, _ => 0
  | _ + 1, _, [] => 0
  | fuel + 1, prev, c :: cs =>
      match matchPatAt p prev (c :: cs) with
      | none => countFrom p fuel (some c) cs
      | some 0 => 1 + countFrom p fuel (some c) cs
      | some (n + 1) =>
          1 + countFrom p fuel (((c :: cs).take (n + 1)).getLast?) ((c :: cs).drop (n + 1))

/-- `(text.match(pat) || []).length` for a global pattern. -/
def countMatches (p : Pat) (text : List Char) : Nat :=
  countFrom p (text.length + 1) none text

/-! ## The pattern tables of `detectLanguageHeuristic` -/

/-- `\b(w1|w2|...)\b` (the shared `\b`s distribute over the alternatives). -/
def wordsPat (ws : List String) : Pat :=
  ws.map (fun w => [Atom.wb, Atom.lit (deA w), Atom.wb])

/-- `\b\w+sfx\b`. -/
def suffixPat (sfx : String) : Pat :=
  [[Atom.wb, Atom.wrep 1, Atom.lit (deA sfx), Atom.wb]]

/-- a bare literal such as `/rr/` or `/qu'/`. -/
def litPat (s : String) : Pat := [[Atom.lit (deA s)]]

/-- a single-character class listing its members, such as `/[äöüß]/`. -/
def charsPat (s : String) : Pat := [[Atom.cls (fun c => (deA s).contains c)]]

/-- a single-character Unicode-range class such as `/[぀-ゟ]/`. -/
def rangePat (lo hi : Nat) : Pat :=
  [[Atom.cls (fun c => lo ≤ c.toNat && c.toNat ≤ hi)]]

/-- `[aeiou]`. -/
def isAeiou (c : Char) : Bool :=
  c = 'a' || c = 'e' || c = 'i' || c = 'o' || c = 'u'

/-- `englishPatterns` (in source order; index 1 contractions, index 2
question words, index 6 `-ly`, index 11 pronouns carry special weights). -/
def englishPatterns : List Pat :=
  [ wordsPat ["the", "and", "or", "but", "in", "on", "at", "to", "for", "of",
      "with", "by", "a", "an", "is", "are", "was", "were", "be", "been",
      "have", "has", "had", "do", "does", "did", "will", "would", "could",
      "should", "can", "may", "might", "must"],
    wordsPat ["it*s", "don*t", "won*t", "can*t", "shouldn*t", "wouldn*t",
      "couldn*t", "isn*t", "aren*t", "wasn*t", "weren*t", "haven*t",
      "hasn*t", "hadn*t", "he*s", "she*s", "we*re", "they*re", "I*m",
      "I*ve", "I*ll", "I*d"],
    wordsPat ["when", "where", "what", "who", "why", "how", "which", "that",
      "this", "these", "those"],
    wordsPat ["speak", "word", "time", "people", "make", "get", "take",
      "come", "go", "see", "know", "think", "say", "look", "use", "find",
      "give", "tell", "work", "call", "try", "ask", "need", "feel",
      "become", "leave", "put", "want", "like", "good", "bad", "big",
      "small", "new", "old", "right", "wrong"],
    suffixPat "ing",
    suffixPat "ed",
    suffixPat "ly",
    suffixPat "tion",
    wordsPat ["actions speak louder", "break a leg", "piece of cake",
      "bite the bullet", "hit the nail", "spill the beans", "break the ice",
      "cost an arm", "kill two birds", "let the cat out"],
    wordsPat ["than", "through", "though", "their", "there", "they*re",
      "where", "were", "your", "you*re", "going", "doing", "being",
      "having", "getting", "making", "taking", "coming", "seeing",
      "looking", "thinking", "saying", "working", "trying", "asking",
      "feeling", "wanting", "liking"],
    wordsPat ["from", "into", "about", "over", "under", "up", "down", "out",
      "off", "away", "back", "here", "there", "now", "then", "before",
      "after", "during", "while", "since", "until", "because", "if",
      "unless", "although", "however", "therefore", "thus", "also", "only",
      "just", "even", "still", "yet", "already", "again", "always", "never",
      "sometimes", "often", "usually", "maybe", "perhaps", "probably",
      "certainly", "definitely"],
    wordsPat ["I", "you", "he", "she", "it", "we", "they", "me", "him",
      "her", "us", "them", "my", "your", "his", "her", "its", "our",
      "their", "mine", "yours", "hers", "ours", "theirs", "myself",
      "yourself", "himself", "herself", "itself", "ourselves",
      "yourselves", "themselves"] ]

/-- English per-index weights (`weight = 2`, overridden at indices 1, 2, 6
and 11 exactly as in the source). -/
def englishWeight (i : Nat) : Nat :=
  if i = 1 then 4 else if i = 2 then 3 else if i = 6 then 5 else
  if i = 11 then 3 else 2

/-- `spanishPatterns`. -/
def spanishPatterns : List Pat :=
  [ wordsPat ["el", "la", "los", "las", "un", "una", "de", "del", "al",
      "en", "con", "por", "para", "desde", "hasta"],
    wordsPat ["que", "como", "cuando", "donde", "porque", "si", "pero",
      "y", "o", "no", "sí", "es", "son", "está", "están", "ser", "estar",
      "tener", "hacer"],
    wordsPat ["muy", "más", "menos", "todo", "todos", "toda", "todas",
      "este", "esta", "estos", "estas"],
    wordsPat ["agua", "casa", "tiempo", "año", "día", "persona", "mundo",
      "vida", "hombre", "mujer", "país", "ciudad", "trabajo", "mano",
      "ojo", "cabeza"],
    litPat "ñ",
    suffixPat "ción",
    suffixPat "ando",
    suffixPat "iendo",
    litPat "rr" ]

/-- `frenchPatterns`. -/
def frenchPatterns : List Pat :=
  [ wordsPat ["le", "la", "les", "un", "une", "de", "du", "des", "au",
      "aux", "en", "dans", "avec", "pour", "sur", "sous", "par"],
    wordsPat ["que", "comme", "quand", "où", "parce", "si", "mais", "et",
      "ou", "non", "oui", "est", "sont", "être", "avoir", "faire", "aller"],
    wordsPat ["très", "plus", "moins", "tout", "tous", "toute", "toutes",
      "ce", "cette", "ces"],
    wordsPat ["eau", "temps", "année", "jour", "personne", "monde", "vie",
      "homme", "femme", "pays", "ville", "travail", "main", "œil", "tête"],
    charsPat "àâäéèêëïîôöùûüÿç",
    suffixPat "tion",
    suffixPat "ment",
    litPat "qu*",
    [ [Atom.lit (deA "c*est")], [Atom.lit (deA "s*est")],
      [Atom.lit (deA "n*est")], [Atom.lit (deA "d*un")],
      [Atom.lit (deA "d*une")] ] ]

/-- `germanPatterns`. -/
def germanPatterns : List Pat :=
  [ wordsPat ["der", "die", "das", "den", "dem", "des", "ein", "eine",
      "einen", "einem", "eines", "einer"],
    wordsPat ["und", "oder", "aber", "wenn", "weil", "dass", "mit", "für",
      "von", "zu", "bei", "nach", "über", "unter", "zwischen"],
    wordsPat ["ist", "sind", "war", "waren", "sein", "haben", "hat",
      "hatte", "hatten", "werden", "wird", "wurde", "wurden"],
    wordsPat ["wasser", "zeit", "jahr", "tag", "mensch", "welt", "leben",
      "mann", "frau", "land", "stadt", "arbeit", "hand", "auge", "kopf"],
    charsPat "äöüß",
    suffixPat "ung",
    suffixPat "heit",
    suffixPat "keit",
    suffixPat "lich",
    [[Atom.wb, Atom.wrep 12, Atom.wb]],
    litPat "sch" ]

/-- `portuguesePatterns`. -/
def portuguesePatterns : List Pat :=
  [ wordsPat ["o", "a", "os", "as", "um", "uma", "de", "do", "da", "dos",
      "das", "em", "no", "na", "nos", "nas", "com", "por", "para",
      "entre", "sobre", "até"],
    wordsPat ["que", "como", "quando", "onde", "porque", "se", "mas", "e",
      "ou", "não", "sim", "é", "são", "está", "estão", "ser", "estar",
      "ter", "fazer", "muito", "mais", "menos", "todo", "todos", "toda",
      "todas", "este", "esta", "estes", "estas"],
    wordsPat ["água", "casa", "tempo", "ano", "dia", "pessoa", "mundo",
      "vida", "homem", "mulher", "país", "cidade", "trabalho", "mão",
      "olho", "cabeça", "coração", "amor", "dinheiro", "português",
      "brasil"],
    wordsPat ["ção"],
    [[Atom.wb, Atom.lit (deA "nh"), Atom.cls isAeiou, Atom.wb]],
    charsPat "ãõ",
    suffixPat "mente",
    [[Atom.lit (deA "lh"), Atom.cls isAeiou]],
    suffixPat "inha" ++ suffixPat "inho",
    suffixPat "ando" ++ suffixPat "endo" ++ suffixPat "indo",
    wordsPat ["está", "estão", "estavam"] ]

/-- `dutchPatterns`. -/
def dutchPatterns : List Pat :=
  [ wordsPat ["de", "het", "een", "van", "en", "in", "op", "met", "voor",
      "door", "naar", "uit", "over", "onder", "tussen"],
    wordsPat ["dat", "die", "dit", "deze", "zo", "als", "want", "maar",
      "of", "niet", "ja", "is", "zijn", "was", "waren", "hebben", "heeft",
      "had", "hadden"],
    wordsPat ["zeer", "meer", "minder", "alle", "alles", "dit", "deze",
      "die", "dat"],
    wordsPat ["water", "tijd", "jaar", "dag", "mens", "wereld", "leven",
      "man", "vrouw", "land", "stad", "werk", "hand", "oog", "hoofd"],
    litPat "ij",
    suffixPat "heid",
    suffixPat "lijk",
    [[Atom.lit (deA "sch"), Atom.wb]],
    litPat "oe",
    litPat "ui" ]

/-- `vietnamesePatterns`. -/
def vietnamesePatterns : List Pat :=
  [ charsPat "àáạảãâầấậẩẫăằắặẳẵèéẹẻẽêềếệểễìíịỉĩòóọỏõôồốộổỗơờớợởỡùúụủũưừứựửữỳýỵỷỹđ",
    wordsPat ["và", "của", "trong", "với", "để", "từ", "đến", "về", "cho",
      "theo", "như", "khi", "mà", "có", "là", "được", "sẽ", "đã", "đang",
      "không", "rất"],
    wordsPat ["này", "đó", "những", "các", "một", "hai", "ba", "bốn",
      "năm", "sáu", "bảy", "tám", "chín", "mười"],
    wordsPat ["nước", "thời", "năm", "ngày", "người", "thế", "đời", "nam",
      "nữ", "nước", "thành", "công", "tay", "mắt", "đầu"],
    wordsPat ["ng"],
    wordsPat ["nh"],
    wordsPat ["tr"],
    wordsPat ["kh"],
    wordsPat ["th"] ]

/-- `japanesePatterns` (hiragana, katakana, kanji ranges and the common
particles). -/
def japanesePatterns : List Pat :=
  [ rangePat 0x3040 0x309F,
    rangePat 0x30A0 0x30FF,
    rangePat 0x4E00 0x9FAF,
    charsPat "はがをにでとのへや" ]

/-- `scores[lang] += matches.length * weight` summed over a pattern list
with one uniform weight (the `if (matches)` guard of the source only skips
additions of zero). -/
def scoreWith (pats : List Pat) (w : Nat) (t : List Char) : Nat :=
  w * (pats.map (fun p => countMatches p t)).sum

/-- The English score, with its per-index weights. -/
def englishScore (t : List Char) : Nat :=
  (englishPatterns.enum.map (fun ip => countMatches ip.2 t * englishWeight ip.1)).sum

/-- The accumulated score of each language on the (lower-cased, trimmed)
text, exactly as built by the `forEach` loops of the source
(weight 2 everywhere except English per-index, Vietnamese 3, Japanese 4). -/
def scores (t : List Char) : Language → Nat
  | .English => englishScore t
  | .Spanish => scoreWith spanishPatterns 2 t
  | .Vietnamese => scoreWith vietnamesePatterns 3 t
  | .French => scoreWith frenchPatterns 2 t
  | .German => scoreWith germanPatterns 2 t
  | .Japanese => scoreWith japanesePatterns 4 t
  | .Portuguese => scoreWith portuguesePatterns 2 t
  | .Dutch => scoreWith dutchPatterns 2 t

/-! ## `detectLanguageHeuristic` -/

/-- `Math.min` on exact rationals, written with an explicit comparison so
that the kernel can evaluate it (provably equal to `min`, below). -/
def jsMin (a b : ℚ) : ℚ := if a ≤ b then a else b

/-- The result type of `detectLanguageHeuristic`:
`{ language: Language | null; confidence: number }`. -/
structure HeurResult where
  language : Option Language
  confidence : ℚ
deriving DecidableEq, Repr

/-- `lowerText = text.toLowerCase().trim()`. -/
def hLower (text : String) : List Char := jsTrim (text.data.map jsToLower)

/-- The per-language scores of `detectLanguageHeuristic` on `text`. -/
def hScores (text : String) : Language → Nat := scores (hLower text)

/-- `maxScore = Math.max(...Object.values(scores))` (all eight scores are
non-negative, so folding `max` from `0` computes the same value). -/
def hMaxScore (text : String) : Nat := (langs.map (hScores text)).foldr max 0

/-- `textLength = text.trim().length`. -/
def hTextLength (text : String) : Nat := (jsTrim text.data).length

/-- `baseConfidence = Math.min((maxScore / textLength) * 10, 1)`. -/
def hBase (text : String) : ℚ :=
  jsMin ((hMaxScore text : ℚ) / (hTextLength text : ℚ) * 10) 1

/-- `topLanguages`: the languages whose score equals the maximum, in the
insertion order of the `scores` record. -/
def hTop (text : String) : List Language :=
  langs.filter (fun l => hScores text l = hMaxScore text)

/-- `secondHighestScore`: the maximum score among the non-English entries. -/
def hSecond (text : String) : Nat :=
  ((langs.filter (fun l => l ≠ Language.English)).map (hScores text)).foldr max 0

/-- `Math.min(confidence * k, 1)`, the shape of every boost of the source. -/
def capMul (c k : ℚ) : ℚ := jsMin (c * k) 1

/-- `if (maxScore >= 10) confidence = Math.min(confidence * 1.5, 1)`. -/
def hC2 (text : String) : ℚ :=
  if 10 ≤ hMaxScore text then capMul (hBase text) (3 / 2) else hBase text

/-- `if (maxScore >= 20) confidence = Math.min(confidence * 1.8, 1)`. -/
def hC3 (text : String) : ℚ :=
  if 20 ≤ hMaxScore text then capMul (hC2 text) (9 / 5) else hC2 text

/-- `if (maxScore >= 30) confidence = Math.min(confidence * 2.0, 1)`. -/
def hC4 (text : String) : ℚ :=
  if 30 ≤ hMaxScore text then capMul (hC3 text) 2 else hC3 text

/-- The English clear-lead boost (`maxScore > 15` and
`maxScore > secondHighestScore * 2`). -/
def hC5 (text : String) (d : Language) : ℚ :=
  if d = Language.English ∧ 15 < hMaxScore text ∧
      hSecond text * 2 < hMaxScore text then
    capMul (hC4 text) (13 / 10)
  else hC4 text

/-- `if (textLength < 20) confidence *= 0.7`. -/
def hC6 (text : String) (d : Language) : ℚ :=
  if hTextLength text < 20 then hC5 text d * (7 / 10) else hC5 text d

/-- The confidence of `detectLanguageHeuristic` once a unique top-scoring
language `d` has been found: base confidence, the three capped high-score
boosts, the English clear-lead boost and the two short-text penalties, in
source order (`if (textLength < 10) confidence *= 0.5` last). -/
def hConf (text : String) (d : Language) : ℚ :=
  if hTextLength text < 10 then hC6 text d * (1 / 2) else hC6 text d

/-- `detectLanguageHeuristic` of
`src/services/languageDetectionService.ts:169`.  The `[]` branch of the
match is unreachable (the maximum of the eight scores is always attained,
so `topLanguages` is never empty); it is given the degenerate result. -/
def detectLanguageHeuristic (text : String) : HeurResult :=
  if (hLower text).length < 3 then ⟨none, 0⟩
  else if hMaxScore text < 2 then ⟨none, 0⟩
  else
    match hTop text with
    | [d] => ⟨some d, hConf text d⟩
    | [] => ⟨none, 0⟩
    | _ => ⟨none, 0⟩

/-! ## `detectLanguage` (the external-API wrapper) -/

/-- The outcome of the one outbound network attempt of `detectLanguage`.
`failure` collects every non-success: a thrown transport/CORS error, the
abort-controller timeout, a non-ok HTTP status, and a response from which
no language-code string could be extracted — the source handles all of
them identically by falling back to the heuristic.  `code s` is a response
from which the string `s` was extracted. -/
inductive ApiOutcome where
  | failure
  | code : String → ApiOutcome
deriving DecidableEq, Repr

/-- The `languageCodeMap` of `detectLanguage` (association list in source
order). -/
def languageCodeMap : List (String × Language) :=
  [ ("en", .English), ("es", .Spanish), ("vi", .Vietnamese),
    ("fr", .French), ("de", .German), ("ja", .Japanese),
    ("pt", .Portuguese), ("nl", .Dutch),
    ("eng", .English), ("spa", .Spanish), ("vie", .Vietnamese),
    ("fra", .French), ("fre", .French), ("ger", .German),
    ("deu", .German), ("jpn", .Japanese), ("por", .Portuguese),
    ("dut", .Dutch), ("nld", .Dutch) ]

/-- `languageCodeMap[detectedLanguageCode.toLowerCase()]`. -/
def mapCode (s : String) : Option Language :=
  (languageCodeMap.lookup (String.mk (s.data.map jsToLower)))

/-- `detectLanguage` of `src/services/languageDetectionService.ts:4`,
instrumented with the number of network attempts it performs (0 or 1).
Texts whose trimmed length is below 4 never reach the network; every
failure and every unrecognized code falls back to the heuristic result;
the function never throws (its `try` spans everything after the length
guard and its `catch` returns the heuristic fallback). -/
def detectLanguage (text : String) (outcome : ApiOutcome) : Option Language × Nat :=
  if (jsTrim text.data).length < 4 then
    ((detectLanguageHeuristic text).language, 0)
  else
    match outcome with
    | .failure => ((detectLanguageHeuristic text).language, 1)
    | .code s =>
        match mapCode s with
        | some l => (some l, 1)
        | none => ((detectLanguageHeuristic text).language, 1)

/-! ## `detectLanguageHybrid` -/

/-- The result type of `detectLanguageHybrid`:
`{ language: Language | null; confidence: number; method: string }`. -/
structure HybridResult where
  language : Option Language
  confidence : ℚ
  method : String
deriving DecidableEq, Repr

/-- The environment of one hybrid-resolution call: the `isMobile`
user-agent test and the outcome the network would produce. -/
structure Env where
  isMobile : Bool
  outcome : ApiOutcome
deriving DecidableEq, Repr

/-- `strongEnglishIndicators` of the Portuguese/English disagreement
special case (the `/i` flag is modelled by lower-casing the text, which is
equivalent here since the pattern itself is lower-case ASCII). -/
def strongEnglishIndicators : Pat :=
  wordsPat ["the", "and", "this", "that", "it*s", "don*t", "can*t",
    "going", "doing", "being", "have", "has", "will", "would", "could",
    "should"]

/-- The heuristic result as `detectLanguageHybrid` holds it after the
mobile confidence boost
(`if (isMobile && heuristicResult.confidence > 0.5) confidence += 0.2`,
capped at 1). -/
def hybridHr (text : String) (mobile : Bool) : HeurResult :=
  if mobile ∧ 1 / 2 < (detectLanguageHeuristic text).confidence then
    ⟨(detectLanguageHeuristic text).language,
      jsMin ((detectLanguageHeuristic text).confidence + 1 / 5) 1⟩
  else detectLanguageHeuristic text

/-- The reconciliation if-chain of `detectLanguageHybrid` (lines 499-593 of
the source), as a function of the trimmed text, the wrapper result
`apiResult` and the (possibly mobile-boosted) heuristic result. -/
def reconcile (trimmed : String) (apiResult : Option Language)
    (hr : HeurResult) : HybridResult :=
  if apiResult.isSome ∧ hr.language.isSome ∧ apiResult = hr.language then
    ⟨apiResult, jsMin (hr.confidence + 3 / 10) 1, "hybrid-agreement"⟩
  else if apiResult.isSome ∧ hr.language = none then
    ⟨apiResult, 4 / 5, "api-only"⟩
  else if apiResult = none ∧ hr.language.isSome then
    ⟨hr.language, hr.confidence * (4 / 5), "heuristic-only"⟩
  else if apiResult.isSome ∧ hr.language.isSome ∧ apiResult ≠ hr.language then
    if ((apiResult = some Language.Portuguese ∧
         hr.language = some Language.English) ∨
        (apiResult = some Language.English ∧
         hr.language = some Language.Portuguese)) ∧
       0 < countMatches strongEnglishIndicators (trimmed.data.map jsToLower) then
      ⟨some Language.English, 4 / 5, "english-portuguese-resolution"⟩
    else
      ⟨apiResult, 3 / 5, "api-preferred"⟩
  else
    ⟨apiResult.orElse (fun _ => hr.language),
      if apiResult.isSome then 4 / 5 else hr.confidence,
      if apiResult.isSome then "api-fallback" else "heuristic-fallback"⟩

/-- `detectLanguageHybrid` of
`src/services/languageDetectionService.ts:425`, instrumented with the
number of network attempts performed.  The input is `Option String`:
`none` models a `null`/`undefined` argument (rejected by the
`typeof text !== "string"` test together with falsy values).  The
`catch` blocks of the source (`"heuristic-failed"`,
`"all-methods-failed"`, `"heuristic-emergency"`) guard calls that cannot
throw — `detectLanguageHeuristic` is pure and total and `detectLanguage`
catches everything internally — and are therefore unreachable; the
embedding, being total, has no corresponding branches. -/
def detectLanguageHybridT (input : Option String) (env : Env) : HybridResult × Nat :=
  match input with
  | none => (⟨none, 0, "invalid-input"⟩, 0)
  | some text =>
    if text = "" then (⟨none, 0, "invalid-input"⟩, 0)
    else
      let trimmedText := String.mk (jsTrim text.data)
      if trimmedText.data.length < 2 then (⟨none, 0, "text-too-short"⟩, 0)
      else
        let hr := hybridHr trimmedText env.isMobile
        -- mobile high-confidence distinctive-language bypass
        if env.isMobile ∧ 19 / 20 < hr.confidence ∧
            (hr.language = some Language.Japanese ∨
             hr.language = some Language.Vietnamese ∨
             hr.language = some Language.German ∨
             hr.language = some Language.Dutch) then
          (⟨hr.language, hr.confidence, "mobile-heuristic-priority"⟩, 0)
        else
          let api := detectLanguage trimmedText env.outcome
          (reconcile trimmedText api.1 hr, api.2)

/-- The `detectLanguageHybrid` result itself. -/
def detectLanguageHybrid (input : Option String) (env : Env) : HybridResult :=
  (detectLanguageHybridT input env).1

/-- How many network attempts one hybrid resolution performs. -/
def externalAttempts (input : Option String) (env : Env) : Nat :=
  (detectLanguageHybridT input env).2

/-! ## Supporting lemmas -/

theorem jsMin_eq (a b : ℚ) : jsMin a b = min a b := by
  unfold jsMin
  rw [min_def]

theorem upperLower_not_ws :
    ∀ p ∈ upperLower, isJsWhitespace p.1 = false ∧ isJsWhitespace p.2 = false := by
  decide

theorem isJsWhitespace_jsToLower (c : Char) :
    isJsWhitespace (jsToLower c) = isJsWhitespace c := by
  unfold jsToLower
  cases h : upperLower.find? (fun p => p.1 = c) with
  | none => rfl
  | some p =>
      have hmem : p ∈ upperLower := List.mem_of_find?_eq_some h
      have hc : p.1 = c := by simpa using List.find?_some h
      have h2 := upperLower_not_ws p hmem
      rw [h2.2, ← hc, h2.1]

theorem jsTrim_map_lower (l : List Char) :
    jsTrim (l.map jsToLower) = (jsTrim l).map jsToLower := by
  have hfe : (fun c => isJsWhitespace (jsToLower c)) = isJsWhitespace :=
    funext isJsWhitespace_jsToLower
  unfold jsTrim List.rdropWhile
  rw [List.dropWhile_map]
  simp only [Function.comp_def, hfe, ← List.map_reverse, List.dropWhile_map,
    Function.comp_def, hfe]

theorem hLower_length (text : String) :
    (hLower text).length = (jsTrim text.data).length := by
  unfold hLower
  rw [jsTrim_map_lower, List.length_map]

theorem jsTrim_idem (l : List Char) : jsTrim (jsTrim l) = jsTrim l := by
  unfold jsTrim
  have h1 : List.dropWhile isJsWhitespace
      ((l.dropWhile isJsWhitespace).rdropWhile isJsWhitespace) =
      (l.dropWhile isJsWhitespace).rdropWhile isJsWhitespace := by
    obtain ⟨u, hu⟩ := (List.rdropWhile_prefix isJsWhitespace
      (l.dropWhile isJsWhitespace))
    cases hx : (l.dropWhile isJsWhitespace).rdropWhile isJsWhitespace with
    | nil => rfl
    | cons a t =>
        have ha : isJsWhitespace a = false := by
          have hcons : l.dropWhile isJsWhitespace = a :: (t ++ u) := by
            rw [← hu, hx]; simp
          have := List.head?_dropWhile_not isJsWhitespace l
          rw [hcons] at this
          simpa using this
        simp [List.dropWhile_cons, ha]
  rw [h1, List.rdropWhile_idempotent]

theorem hLower_trim (text : String) :
    hLower (String.mk (jsTrim text.data)) = hLower text := by
  unfold hLower
  simp only []
  rw [jsTrim_map_lower, jsTrim_map_lower, jsTrim_idem]

theorem hTextLength_trim (text : String) :
    hTextLength (String.mk (jsTrim text.data)) = hTextLength text := by
  unfold hTextLength
  simp only []
  rw [jsTrim_idem]

theorem le_foldr_max (l : List ℕ) (x : ℕ) (hx : x ∈ l) : x ≤ l.foldr max 0 := by
  induction l with
  | nil => cases hx
  | cons a t ih =>
      rcases List.mem_cons.mp hx with h | h
      · subst h; exact le_max_left _ _
      · exact le_trans (ih h) (le_max_right _ _)

theorem foldr_max_mem (l : List ℕ) (h : l.foldr max 0 ≠ 0) : l.foldr max 0 ∈ l := by
  induction l with
  | nil => simp at h
  | cons a t ih =>
      simp only [List.foldr] at h ⊢
      rcases le_total (t.foldr max 0) a with hab | hab
      · rw [max_eq_left hab]; exact List.mem_cons_self a t
      · rw [max_eq_right hab] at h ⊢
        rcases Nat.eq_zero_or_pos (t.foldr max 0) with h0 | h0
        · exact absurd h0 h
        · exact List.mem_cons_of_mem a (ih (Nat.pos_iff_ne_zero.mp h0))

theorem lang_mem_langs (l : Language) : l ∈ langs := by
  cases l <;> simp [langs]

theorem hScores_le_max (text : String) {l : Language} (hl : l ∈ langs) :
    hScores text l ≤ hMaxScore text :=
  le_foldr_max _ _ (List.mem_map_of_mem _ hl)

theorem hTop_ne_nil (text : String) : hTop text ≠ [] := by
  intro hnil
  have hattain : ∃ l ∈ langs, hScores text l = hMaxScore text := by
    rcases Nat.eq_zero_or_pos (hMaxScore text) with h0 | h0
    · refine ⟨Language.English, lang_mem_langs _, ?_⟩
      have := hScores_le_max text (lang_mem_langs Language.English)
      omega
    · have hmem := foldr_max_mem _ (Nat.pos_iff_ne_zero.mp h0)
      obtain ⟨l, hl, he⟩ := List.mem_map.mp hmem
      exact ⟨l, hl, he⟩
  obtain ⟨l, hl, he⟩ := hattain
  have hmem : l ∈ hTop text := by
    unfold hTop
    exact List.mem_filter.mpr ⟨hl, by simp [he]⟩
  rw [hnil] at hmem
  cases hmem

theorem heur_shape (text : String) :
    detectLanguageHeuristic text = ⟨none, 0⟩ ∨
    ∃ d, hTop text = [d] ∧ 3 ≤ (hLower text).length ∧ 2 ≤ hMaxScore text ∧
      detectLanguageHeuristic text = ⟨some d, hConf text d⟩ := by
  unfold detectLanguageHeuristic
  split_ifs with h1 h2
  · exact Or.inl rfl
  · exact Or.inl rfl
  · rcases hx : hTop text with _ | ⟨d, _ | ⟨e, r⟩⟩
    · exact absurd hx (hTop_ne_nil text)
    · right
      exact ⟨d, rfl, by omega, by omega, rfl⟩
    · left
      rfl

theorem capMul_nonneg {c k : ℚ} (hc : 0 ≤ c) (hk : 0 ≤ k) : 0 ≤ capMul c k := by
  unfold capMul
  rw [jsMin_eq]
  exact le_min (mul_nonneg hc hk) zero_le_one

theorem capMul_le_one (c k : ℚ) : capMul c k ≤ 1 := by
  unfold capMul
  rw [jsMin_eq]
  exact min_le_right _ _

theorem capMul_pos {c k : ℚ} (hc : 0 < c) (hk : 0 < k) : 0 < capMul c k := by
  unfold capMul
  rw [jsMin_eq]
  exact lt_min (mul_pos hc hk) one_pos

theorem hBase_nonneg (text : String) : 0 ≤ hBase text := by
  unfold hBase
  rw [jsMin_eq]
  exact le_min (by positivity) zero_le_one

theorem hBase_le_one (text : String) : hBase text ≤ 1 := by
  unfold hBase
  rw [jsMin_eq]
  exact min_le_right _ _

theorem base_pos_aux (ms tl : ℕ) (hms : 2 ≤ ms) (htl : 0 < tl) :
    0 < min ((ms : ℚ) / (tl : ℚ) * 10) 1 := by
  have h1 : (0 : ℚ) < (ms : ℚ) := by
    have : (0 : ℕ) < ms := by omega
    exact_mod_cast this
  have h2 : (0 : ℚ) < (tl : ℚ) := by exact_mod_cast htl
  exact lt_min (by positivity) one_pos

theorem hBase_pos (text : String) (hms : 2 ≤ hMaxScore text)
    (htl : 0 < hTextLength text) : 0 < hBase text := by
  unfold hBase
  rw [jsMin_eq]
  exact base_pos_aux _ _ hms htl

theorem hC2_mem (text : String) : 0 ≤ hC2 text ∧ hC2 text ≤ 1 := by
  unfold hC2
  split_ifs
  · exact ⟨capMul_nonneg (hBase_nonneg text) (by norm_num), capMul_le_one _ _⟩
  · exact ⟨hBase_nonneg text, hBase_le_one text⟩

theorem hC2_pos (text : String) (hms : 2 ≤ hMaxScore text)
    (htl : 0 < hTextLength text) : 0 < hC2 text := by
  unfold hC2
  split_ifs
  · exact capMul_pos (hBase_pos text hms htl) (by norm_num)
  · exact hBase_pos text hms htl

theorem hC3_mem (text : String) : 0 ≤ hC3 text ∧ hC3 text ≤ 1 := by
  unfold hC3
  split_ifs
  · exact ⟨capMul_nonneg (hC2_mem text).1 (by norm_num), capMul_le_one _ _⟩
  · exact hC2_mem text

theorem hC3_pos (text : String) (hms : 2 ≤ hMaxScore text)
    (htl : 0 < hTextLength text) : 0 < hC3 text := by
  unfold hC3
  split_ifs
  · exact capMul_pos (hC2_pos text hms htl) (by norm_num)
  · exact hC2_pos text hms htl

theorem hC4_mem (text : String) : 0 ≤ hC4 text ∧ hC4 text ≤ 1 := by
  unfold hC4
  split_ifs
  · exact ⟨capMul_nonneg (hC3_mem text).1 (by norm_num), capMul_le_one _ _⟩
  · exact hC3_mem text

theorem hC4_pos (text : String) (hms : 2 ≤ hMaxScore text)
    (htl : 0 < hTextLength text) : 0 < hC4 text := by
  unfold hC4
  split_ifs
  · exact capMul_pos (hC3_pos text hms htl) (by norm_num)
  · exact hC3_pos text hms htl

theorem hC5_mem (text : String) (d : Language) :
    0 ≤ hC5 text d ∧ hC5 text d ≤ 1 := by
  unfold hC5
  split_ifs
  · exact ⟨capMul_nonneg (hC4_mem text).1 (by norm_num), capMul_le_one _ _⟩
  · exact hC4_mem text

theorem hC5_pos (text : String) (d : Language) (hms : 2 ≤ hMaxScore text)
    (htl : 0 < hTextLength text) : 0 < hC5 text d := by
  unfold hC5
  split_ifs
  · exact capMul_pos (hC4_pos text hms htl) (by norm_num)
  · exact hC4_pos text hms htl

theorem hC6_mem (text : String) (d : Language) :
    0 ≤ hC6 text d ∧ hC6 text d ≤ 1 := by
  unfold hC6
  have h := hC5_mem text d
  split_ifs
  · constructor
    · exact mul_nonneg h.1 (by norm_num)
    · nlinarith [h.1, h.2]
  · exact h

theorem hC6_pos (text : String) (d : Language) (hms : 2 ≤ hMaxScore text)
    (htl : 0 < hTextLength text) : 0 < hC6 text d := by
  unfold hC6
  split_ifs
  · exact mul_pos (hC5_pos text d hms htl) (by norm_num)
  · exact hC5_pos text d hms htl

theorem hConf_mem (text : String) (d : Language) :
    0 ≤ hConf text d ∧ hConf text d ≤ 1 := by
  unfold hConf
  have h := hC6_mem text d
  split_ifs
  · constructor
    · exact mul_nonneg h.1 (by norm_num)
    · nlinarith [h.1, h.2]
  · exact h

theorem hConf_pos (text : String) (d : Language) (hms : 2 ≤ hMaxScore text)
    (htl : 0 < hTextLength text) : 0 < hConf text d := by
  unfold hConf
  split_ifs
  · exact mul_pos (hC6_pos text d hms htl) (by norm_num)
  · exact hC6_pos text d hms htl

theorem heur_conf_mem (text : String) :
    0 ≤ (detectLanguageHeuristic text).confidence ∧
    (detectLanguageHeuristic text).confidence ≤ 1 := by
  rcases heur_shape text with h | ⟨d, _, _, _, h⟩
  · rw [h]; norm_num
  · rw [h]; exact hConf_mem text d

theorem heur_textLength_pos (text : String) (h : 3 ≤ (hLower text).length) :
    0 < hTextLength text := by
  have := hLower_length text
  unfold hTextLength
  omega

theorem heur_none_eq (text : String)
    (h : (detectLanguageHeuristic text).language = none) :
    detectLanguageHeuristic text = ⟨none, 0⟩ := by
  rcases heur_shape text with hs | ⟨d, _, _, _, hs⟩
  · exact hs
  · rw [hs] at h; cases h

theorem heur_pos (text : String) (l : Language)
    (h : (detectLanguageHeuristic text).language = some l) :
    0 < (detectLanguageHeuristic text).confidence := by
  rcases heur_shape text with hs | ⟨d, _, hlen, hms, hs⟩
  · rw [hs] at h; cases h
  · rw [hs]
    exact hConf_pos text d hms (heur_textLength_pos text hlen)

/-- A network outcome the resolver cannot use: a failure, or a payload code
outside `languageCodeMap`. -/
def apiUnavailable : ApiOutcome → Prop
  | .failure => True
  | .code s => mapCode s = none

theorem detectLanguage_unavailable (text : String) (o : ApiOutcome)
    (h : apiUnavailable o) :
    (detectLanguage text o).1 = (detectLanguageHeuristic text).language := by
  unfold detectLanguage
  split_ifs
  · rfl
  · cases o with
    | failure => rfl
    | code s =>
        have hc : mapCode s = none := h
        simp [hc]

theorem detectLanguage_none (text : String) (o : ApiOutcome)
    (h : (detectLanguage text o).1 = none) :
    (detectLanguageHeuristic text).language = none := by
  unfold detectLanguage at h
  split_ifs at h
  · exact h
  · cases o with
    | failure => exact h
    | code s =>
        cases hm : mapCode s with
        | some l => simp [hm] at h
        | none => simp [hm] at h; exact h

theorem detectLanguage_attempts (text : String) (o : ApiOutcome) :
    (detectLanguage text o).2 =
      if (jsTrim text.data).length < 4 then 0 else 1 := by
  unfold detectLanguage
  split_ifs
  · rfl
  · cases o with
    | failure => rfl
    | code s => cases hm : mapCode s <;> simp [hm]

theorem hybridHr_language (text : String) (mobile : Bool) :
    (hybridHr text mobile).language = (detectLanguageHeuristic text).language := by
  unfold hybridHr
  split_ifs <;> rfl

theorem hybridHr_mem (text : String) (mobile : Bool) :
    0 ≤ (hybridHr text mobile).confidence ∧
    (hybridHr text mobile).confidence ≤ 1 := by
  unfold hybridHr
  split_ifs
  · simp only [jsMin_eq]
    exact ⟨le_min (by linarith [(heur_conf_mem text).1]) zero_le_one,
      min_le_right _ _⟩
  · exact heur_conf_mem text

theorem hybridHr_none (text : String) (mobile : Bool)
    (h : (hybridHr text mobile).language = none) :
    (hybridHr text mobile).confidence = 0 := by
  unfold hybridHr at h ⊢
  split_ifs at h ⊢ with hc
  · have he := heur_none_eq text h
    rw [he] at hc
    norm_num at hc
  · have he := heur_none_eq text h
    rw [he]

/-- The method tags the embedded resolver can actually produce. -/
def reachableTags : List String :=
  ["invalid-input", "text-too-short", "mobile-heuristic-priority",
   "hybrid-agreement", "api-only", "english-portuguese-resolution",
   "api-preferred", "heuristic-fallback"]

theorem reconcile_facts (trimmed : String) (apiResult : Option Language)
    (hr : HeurResult)
    (hb : 0 ≤ hr.confidence ∧ hr.confidence ≤ 1)
    (hn : hr.language = none → hr.confidence = 0)
    (hcompat : apiResult = none → hr.language = none) :
    (0 ≤ (reconcile trimmed apiResult hr).confidence ∧
     (reconcile trimmed apiResult hr).confidence ≤ 1) ∧
    ((reconcile trimmed apiResult hr).language = none →
      (reconcile trimmed apiResult hr).confidence = 0) ∧
    (reconcile trimmed apiResult hr).method ∈
      ["hybrid-agreement", "api-only", "english-portuguese-resolution",
       "api-preferred", "heuristic-fallback"] := by
  unfold reconcile
  rcases hapi : apiResult with _ | al
  · subst hapi
    have hl : hr.language = none := hcompat rfl
    have hc0 : hr.confidence = 0 := hn hl
    simp [hl, hc0, Option.orElse]
  · subst hapi
    rcases hL : hr.language with _ | hl2
    · simp only [hL, Option.isSome_some, Option.isSome_none, true_and,
        false_and, and_false, if_true, if_false, reduceCtorEq]
      norm_num
    · by_cases heq : al = hl2
      · subst heq
        simp [hL, jsMin_eq]
        linarith [hb.1]
      · simp [hL, heq]
        split_ifs
        · norm_num
        · norm_num

theorem subTags_mem {m : String}
    (hm : m ∈ ["hybrid-agreement", "api-only", "english-portuguese-resolution",
      "api-preferred", "heuristic-fallback"]) : m ∈ reachableTags := by
  simp only [List.mem_cons, List.not_mem_nil, or_false] at hm
  rcases hm with h | h | h | h | h <;> subst h <;> decide

theorem hybrid_facts (input : Option String) (env : Env) :
    (0 ≤ (detectLanguageHybrid input env).confidence ∧
     (detectLanguageHybrid input env).confidence ≤ 1) ∧
    ((detectLanguageHybrid input env).language = none →
      (detectLanguageHybrid input env).confidence = 0) ∧
    (detectLanguageHybrid input env).method ∈ reachableTags ∧
    externalAttempts input env ≤ 1 := by
  unfold detectLanguageHybrid externalAttempts detectLanguageHybridT
  cases input with
  | none => simp [reachableTags]
  | some text =>
      by_cases h1 : text = ""
      · simp [h1, reachableTags]
      · simp only [h1, if_false, reduceIte]
        by_cases h2 : (String.mk (jsTrim text.data)).data.length < 2
        · simp [h2, reachableTags]
        · simp only [h2, if_false, reduceIte]
          by_cases h3 : env.isMobile = true ∧
              19 / 20 < (hybridHr (String.mk (jsTrim text.data)) env.isMobile).confidence ∧
              ((hybridHr (String.mk (jsTrim text.data)) env.isMobile).language = some Language.Japanese ∨
               (hybridHr (String.mk (jsTrim text.data)) env.isMobile).language = some Language.Vietnamese ∨
               (hybridHr (String.mk (jsTrim text.data)) env.isMobile).language = some Language.German ∨
               (hybridHr (String.mk (jsTrim text.data)) env.isMobile).language = some Language.Dutch)
          · rw [if_pos h3]
            refine ⟨hybridHr_mem _ _, ?_, ?_, ?_⟩
            · intro hnone
              rcases h3.2.2 with h | h | h | h <;> rw [h] at hnone <;> cases hnone
            · simp [reachableTags]
            · omega
          · rw [if_neg h3]
            have hrf := reconcile_facts (String.mk (jsTrim text.data))
              (detectLanguage (String.mk (jsTrim text.data)) env.outcome).1
              (hybridHr (String.mk (jsTrim text.data)) env.isMobile)
              (hybridHr_mem _ _) (hybridHr_none _ _)
              (fun hnone => by
                rw [hybridHr_language]
                exact detectLanguage_none _ _ hnone)
            refine ⟨hrf.1, hrf.2.1, subTags_mem hrf.2.2, ?_⟩
            show (detectLanguage (String.mk (jsTrim text.data)) env.outcome).2 ≤ 1
            have ha := detectLanguage_attempts (String.mk (jsTrim text.data)) env.outcome
            rw [ha]
            split_ifs <;> omega

theorem reconcile_self (trimmed : String) (hr : HeurResult) :
    (reconcile trimmed hr.language hr).method = "hybrid-agreement" ∨
    ((reconcile trimmed hr.language hr).method = "heuristic-fallback" ∧
      hr.language = none) := by
  unfold reconcile
  rcases hL : hr.language with _ | l
  · simp [hL]
  · simp [hL]

theorem hybrid_unavailable_tags (input : Option String) (env : Env)
    (h : apiUnavailable env.outcome) :
    (detectLanguageHybrid input env).method ∈
      ["invalid-input", "text-too-short", "mobile-heuristic-priority",
       "hybrid-agreement", "heuristic-fallback"] := by
  unfold detectLanguageHybrid detectLanguageHybridT
  cases input with
  | none => simp
  | some text =>
      by_cases h1 : text = ""
      · simp [h1]
      · simp only [h1, if_false, reduceIte]
        by_cases h2 : (String.mk (jsTrim text.data)).data.length < 2
        · simp [h2]
        · simp only [h2, if_false, reduceIte]
          by_cases h3 : env.isMobile = true ∧
              19 / 20 < (hybridHr (String.mk (jsTrim text.data)) env.isMobile).confidence ∧
              ((hybridHr (String.mk (jsTrim text.data)) env.isMobile).language = some Language.Japanese ∨
               (hybridHr (String.mk (jsTrim text.data)) env.isMobile).language = some Language.Vietnamese ∨
               (hybridHr (String.mk (jsTrim text.data)) env.isMobile).language = some Language.German ∨
               (hybridHr (String.mk (jsTrim text.data)) env.isMobile).language = some Language.Dutch)
          · rw [if_pos h3]
            simp
          · rw [if_neg h3]
            have hapi : (detectLanguage (String.mk (jsTrim text.data)) env.outcome).1 =
                (hybridHr (String.mk (jsTrim text.data)) env.isMobile).language := by
              rw [detectLanguage_unavailable _ _ h, hybridHr_language]
            rw [hapi]
            rcases reconcile_self (String.mk (jsTrim text.data))
                (hybridHr (String.mk (jsTrim text.data)) env.isMobile) with hm | ⟨hm, _⟩ <;>
              simp [hm]

theorem hybrid_attempts_le_one (input : Option String) (env : Env) :
    externalAttempts input env ≤ 1 :=
  (hybrid_facts input env).2.2.2

theorem hybrid_attempts_eq_one (text : String) (env : Env)
    (hmob : env.isMobile = false) (hlen : 4 ≤ (jsTrim text.data).length) :
    externalAttempts (some text) env = 1 := by
  unfold externalAttempts detectLanguageHybridT
  dsimp only
  have h1 : text ≠ "" := by
    intro he
    subst he
    simp [jsTrim, List.rdropWhile] at hlen
  rw [if_neg h1]
  have h2 : ¬(String.mk (jsTrim text.data)).data.length < 2 := by
    simp only [String.data]
    omega
  rw [if_neg h2]
  have h3 : ¬(env.isMobile = true ∧
      19 / 20 < (hybridHr (String.mk (jsTrim text.data)) env.isMobile).confidence ∧
      ((hybridHr (String.mk (jsTrim text.data)) env.isMobile).language = some Language.Japanese ∨
       (hybridHr (String.mk (jsTrim text.data)) env.isMobile).language = some Language.Vietnamese ∨
       (hybridHr (String.mk (jsTrim text.data)) env.isMobile).language = some Language.German ∨
       (hybridHr (String.mk (jsTrim text.data)) env.isMobile).language = some Language.Dutch)) := by
    intro hand
    rw [hmob] at hand
    cases hand.1
  rw [if_neg h3]
  show (detectLanguage (String.mk (jsTrim text.data)) env.outcome).2 = 1
  rw [detectLanguage_attempts]
  have : ¬ (jsTrim (String.mk (jsTrim text.data)).data).length < 4 := by
    simp only [String.data]
    rw [jsTrim_idem]
    omega
  rw [if_neg this]

theorem hybrid_attempts_eq_zero (text : String) (env : Env)
    (hlen : (jsTrim text.data).length < 4) :
    externalAttempts (some text) env = 0 := by
  unfold externalAttempts detectLanguageHybridT
  dsimp only
  by_cases h1 : text = ""
  · simp [h1]
  · rw [if_neg h1]
    by_cases h2 : (String.mk (jsTrim text.data)).data.length < 2
    · rw [if_pos h2]
    · rw [if_neg h2]
      by_cases h3 : env.isMobile = true ∧
          19 / 20 < (hybridHr (String.mk (jsTrim text.data)) env.isMobile).confidence ∧
          ((hybridHr (String.mk (jsTrim text.data)) env.isMobile).language = some Language.Japanese ∨
           (hybridHr (String.mk (jsTrim text.data)) env.isMobile).language = some Language.Vietnamese ∨
           (hybridHr (String.mk (jsTrim text.data)) env.isMobile).language = some Language.German ∨
           (hybridHr (String.mk (jsTrim text.data)) env.isMobile).language = some Language.Dutch)
      · rw [if_pos h3]
      · rw [if_neg h3]
        show (detectLanguage (String.mk (jsTrim text.data)) env.outcome).2 = 0
        rw [detectLanguage_attempts]
        have : (jsTrim (String.mk (jsTrim text.data)).data).length < 4 := by
          simp only [String.data]
          rw [jsTrim_idem]
          omega
        rw [if_pos this]

theorem hTop_score {text : String} {l : Language} (h : l ∈ hTop text) :
    hScores text l = hMaxScore text := by
  unfold hTop at h
  have := (List.mem_filter.mp h).2
  exact of_decide_eq_true this

theorem mem_hTop {text : String} {l : Language} (hl : l ∈ langs)
    (h : hScores text l = hMaxScore text) : l ∈ hTop text := by
  unfold hTop
  exact List.mem_filter.mpr ⟨hl, by simp [h]⟩

theorem heur_none_iff (text : String) :
    (detectLanguageHeuristic text = ⟨none, 0⟩ ↔
      ((jsTrim text.data).length < 3 ∨ hMaxScore text < 2 ∨
        2 ≤ (hTop text).length)) ∧
    (¬((jsTrim text.data).length < 3 ∨ hMaxScore text < 2 ∨
        2 ≤ (hTop text).length) →
      ∃ l, (detectLanguageHeuristic text).language = some l ∧
        hScores text l = hMaxScore text ∧
        ∀ l' ∈ langs, l' ≠ l → hScores text l' < hScores text l) := by
  have hlen := hLower_length text
  unfold detectLanguageHeuristic
  split_ifs with i1 i2
  · constructor
    · exact ⟨fun _ => Or.inl (by omega), fun _ => rfl⟩
    · intro hn
      exact absurd (Or.inl (by omega)) hn
  · constructor
    · exact ⟨fun _ => Or.inr (Or.inl i2), fun _ => rfl⟩
    · intro hn
      exact absurd (Or.inr (Or.inl i2)) hn
  · rcases hx : hTop text with _ | ⟨d, _ | ⟨e, r⟩⟩
    · exact absurd hx (hTop_ne_nil text)
    · have hdmem : d ∈ hTop text := by rw [hx]; exact List.mem_cons_self _ _
      have hdscore := hTop_score hdmem
      constructor
      · constructor
        · intro hfalse
          cases hfalse
        · intro hor
          rcases hor with h | h | h
          · omega
          · omega
          · simp at h
      · intro _
        refine ⟨d, rfl, hdscore, ?_⟩
        intro l' hl' hne
        have hle := hScores_le_max text hl'
        rcases lt_or_eq_of_le hle with hlt | heq
        · omega
        · exfalso
          have : l' ∈ hTop text := mem_hTop hl' heq
          rw [hx] at this
          simp at this
          exact hne this
    · constructor
      · constructor
        · intro _
          refine Or.inr (Or.inr ?_)
          simp
        · intro _
          rfl
      · intro hn
        exfalso
        apply hn
        refine Or.inr (Or.inr ?_)
        simp

theorem hScores_trim (text : String) :
    hScores (String.mk (jsTrim text.data)) = hScores text := by
  unfold hScores
  rw [hLower_trim]

theorem hMaxScore_trim (text : String) :
    hMaxScore (String.mk (jsTrim text.data)) = hMaxScore text := by
  unfold hMaxScore
  rw [hScores_trim]

theorem hTop_trim (text : String) :
    hTop (String.mk (jsTrim text.data)) = hTop text := by
  unfold hTop
  rw [hScores_trim, hMaxScore_trim]

theorem hSecond_trim (text : String) :
    hSecond (String.mk (jsTrim text.data)) = hSecond text := by
  unfold hSecond
  rw [hScores_trim]

theorem hBase_trim (text : String) :
    hBase (String.mk (jsTrim text.data)) = hBase text := by
  unfold hBase
  rw [hMaxScore_trim, hTextLength_trim]

theorem hC2_trim (text : String) :
    hC2 (String.mk (jsTrim text.data)) = hC2 text := by
  unfold hC2
  rw [hMaxScore_trim, hBase_trim]

theorem hC3_trim (text : String) :
    hC3 (String.mk (jsTrim text.data)) = hC3 text := by
  unfold hC3
  rw [hMaxScore_trim, hC2_trim]

theorem hC4_trim (text : String) :
    hC4 (String.mk (jsTrim text.data)) = hC4 text := by
  unfold hC4
  rw [hMaxScore_trim, hC3_trim]

theorem hC5_trim (text : String) (d : Language) :
    hC5 (String.mk (jsTrim text.data)) d = hC5 text d := by
  unfold hC5
  rw [hMaxScore_trim, hSecond_trim, hC4_trim]

theorem hC6_trim (text : String) (d : Language) :
    hC6 (String.mk (jsTrim text.data)) d = hC6 text d := by
  unfold hC6
  rw [hTextLength_trim, hC5_trim]

theorem hConf_trim (text : String) (d : Language) :
    hConf (String.mk (jsTrim text.data)) d = hConf text d := by
  unfold hConf
  rw [hTextLength_trim, hC6_trim]

theorem heuristic_trim (text : String) :
    detectLanguageHeuristic (String.mk (jsTrim text.data)) =
      detectLanguageHeuristic text := by
  unfold detectLanguageHeuristic
  simp only [hLower_trim, hMaxScore_trim, hTop_trim, hConf_trim]

theorem heur_short (text : String) (h : (hLower text).length < 3) :
    detectLanguageHeuristic text = ⟨none, 0⟩ := by
  unfold detectLanguageHeuristic
  rw [if_pos h]

theorem hybridHr_not_mobile (text : String) :
    hybridHr text false = detectLanguageHeuristic text := by
  unfold hybridHr
  rw [if_neg]
  simp

theorem reconcile_agree (trimmed : String) (l : Language) (hr : HeurResult)
    (h : hr.language = some l) :
    reconcile trimmed (some l) hr =
      ⟨some l, min (hr.confidence + 3 / 10) 1, "hybrid-agreement"⟩ := by
  unfold reconcile
  simp [h, jsMin_eq]

theorem hybrid_agree_eq (text : String) (l : Language) (o : ApiOutcome)
    (hl : (detectLanguageHeuristic text).language = some l)
    (hapi : (detectLanguage (String.mk (jsTrim text.data)) o).1 = some l) :
    detectLanguageHybrid (some text) ⟨false, o⟩ =
      ⟨some l, min ((detectLanguageHeuristic text).confidence + 3 / 10) 1,
        "hybrid-agreement"⟩ := by
  unfold detectLanguageHybrid detectLanguageHybridT
  dsimp only
  have h1 : text ≠ "" := by
    intro he
    subst he
    have : detectLanguageHeuristic "" = ⟨none, 0⟩ := by decide
    rw [this] at hl
    cases hl
  rw [if_neg h1]
  have h2 : ¬(String.mk (jsTrim text.data)).data.length < 2 := by
    intro hlt
    simp only [String.data] at hlt
    have hshort : (hLower text).length < 3 := by
      have := hLower_length text
      omega
    rw [heur_short text hshort] at hl
    cases hl
  rw [if_neg h2]
  rw [if_neg (by simp)]
  have hhr : hybridHr (String.mk (jsTrim text.data)) false =
      detectLanguageHeuristic text := by
    rw [hybridHr_not_mobile, heuristic_trim]
  rw [hapi, hhr, reconcile_agree _ _ _ hl]

theorem agree_api_of_code (text : String) (l : Language) (s : String)
    (hl : (detectLanguageHeuristic text).language = some l)
    (hs : mapCode s = some l) :
    (detectLanguage (String.mk (jsTrim text.data)) (.code s)).1 = some l := by
  unfold detectLanguage
  split_ifs
  · rw [heuristic_trim]
    exact hl
  · simp [hs]

theorem agree_api_of_failure (text : String) (l : Language) (o : ApiOutcome)
    (hl : (detectLanguageHeuristic text).language = some l)
    (ho : apiUnavailable o) :
    (detectLanguage (String.mk (jsTrim text.data)) o).1 = some l := by
  rw [detectLanguage_unavailable _ _ ho, heuristic_trim]
  exact hl

/-! ## Concrete inputs used by the witnesses and counterexamples -/

/-- A clear-cut English sentence on which the heuristic reaches the
confidence cap of 1. -/
def taText : String := "the and the and the and"

/-- A short English sentence whose heuristic confidence stays below 1
(short-text penalty). -/
def tbText : String := "the cat is big"

unseal Rat.mul Rat.add Rat.sub Rat.inv in
theorem heurTA : detectLanguageHeuristic taText = ⟨some Language.English, 1⟩ := by
  decide

unseal Rat.mul Rat.add Rat.sub Rat.inv in
theorem heurTB :
    detectLanguageHeuristic tbText = ⟨some Language.English, 7 / 10⟩ := by
  decide

theorem heur_ab : detectLanguageHeuristic (String.mk (jsTrim ("ab" : String).data)) =
    ⟨none, 0⟩ := by
  decide

theorem hybrid_empty (env : Env) :
    detectLanguageHybridT (some "") env = (⟨none, 0, "invalid-input"⟩, 0) := by
  unfold detectLanguageHybridT
  dsimp only
  rw [if_pos rfl]

theorem hybrid_ab (env : Env) :
    detectLanguageHybridT (some "ab") env =
      (⟨none, 0, "heuristic-fallback"⟩, 0) := by
  unfold detectLanguageHybridT
  dsimp only
  rw [if_neg (by decide : ¬("ab" : String) = "")]
  rw [if_neg (by decide : ¬(String.mk (jsTrim ("ab" : String).data)).data.length < 2)]
  have hhr : hybridHr (String.mk (jsTrim ("ab" : String).data)) env.isMobile =
      ⟨none, 0⟩ := by
    unfold hybridHr
    rw [heur_ab]
    rw [if_neg]
    intro h
    have := h.2
    norm_num at this
  rw [hhr]
  rw [if_neg (by
    intro h
    have := h.2.1
    norm_num at this)]
  have hdl : detectLanguage (String.mk (jsTrim ("ab" : String).data)) env.outcome =
      (none, 0) := by
    unfold detectLanguage
    rw [if_pos (by decide), heur_ab]
  rw [hdl]
  have hrec : reconcile (String.mk (jsTrim ("ab" : String).data)) none ⟨none, 0⟩ =
      ⟨none, 0, "heuristic-fallback"⟩ := by
    unfold reconcile
    simp [Option.orElse]
  rw [hrec]

/-! ## The claims -/

/-- C1: for every string input, `detectLanguageHeuristic` returns
`{language: none, confidence: 0}` if and only if the trimmed text is
shorter than 3 characters, or the maximum accumulated language score is
below the minimum threshold of 2, or two or more languages tie for the
maximum score; in every other case it returns the unique top-scoring
language. -/
theorem C1_heuristic_none_iff (text : String) :
    (detectLanguageHeuristic text = ⟨none, 0⟩ ↔
      ((jsTrim text.data).length < 3 ∨ hMaxScore text < 2 ∨
        2 ≤ (hTop text).length)) ∧
    (¬((jsTrim text.data).length < 3 ∨ hMaxScore text < 2 ∨
        2 ≤ (hTop text).length) →
      ∃ l, (detectLanguageHeuristic text).language = some l ∧
        hScores text l = hMaxScore text ∧
        ∀ l' ∈ langs, l' ≠ l → hScores text l' < hScores text l) :=
  heur_none_iff text

/-- Witness for C1 at the concrete input `taText`: the degenerate
conditions fail there and the unique top-scoring language is English. -/
theorem C1_heuristic_none_iff_witness :
    ∃ l, (detectLanguageHeuristic taText).language = some l ∧
      hScores taText l = hMaxScore taText ∧
      ∀ l' ∈ langs, l' ≠ l → hScores taText l' < hScores taText l :=
  (C1_heuristic_none_iff taText).2 (by decide)

/-- C2 (amended): under an environment in which the external-detector
attempt fails, times out, or returns no recognizable language code,
`detectLanguageHybrid` returns one of the tags `invalid-input`,
`text-too-short`, `mobile-heuristic-priority`, `heuristic-fallback` — or
the agreement tag `hybrid-agreement`, because the wrapper
`detectLanguage` masks every failure by returning the heuristic language,
which then coincides with the heuristic's own answer.  It never returns
the external-only tag `api-only`.  (The claim as stated — never the
agreement tag — is refuted by `C2_no_agreement_counterexample`.) -/
theorem C2_no_agreement (input : Option String) (env : Env)
    (h : apiUnavailable env.outcome) :
    (detectLanguageHybrid input env).method ∈
      ["invalid-input", "text-too-short", "mobile-heuristic-priority",
       "hybrid-agreement", "heuristic-fallback"] ∧
    (detectLanguageHybrid input env).method ≠ "api-only" := by
  refine ⟨hybrid_unavailable_tags input env h, ?_⟩
  intro heq
  have hm := hybrid_unavailable_tags input env h
  rw [heq] at hm
  exact absurd hm (by decide)

/-- Counterexample to C2 as stated: with the external detector failing,
the resolver still reports the agreement tag on a clear English sentence. -/
theorem C2_no_agreement_counterexample :
    apiUnavailable ApiOutcome.failure ∧
    (detectLanguageHybrid (some taText) ⟨false, ApiOutcome.failure⟩).method =
      "hybrid-agreement" := by
  refine ⟨trivial, ?_⟩
  have h := hybrid_agree_eq taText Language.English ApiOutcome.failure
    (by rw [heurTA]) (agree_api_of_failure taText Language.English
      ApiOutcome.failure (by rw [heurTA]) trivial)
  rw [h]

/-- Witness for C2 at the concrete input `"ab"` with a failing detector. -/
theorem C2_no_agreement_witness :
    (detectLanguageHybrid (some "ab") ⟨false, ApiOutcome.failure⟩).method ∈
      ["invalid-input", "text-too-short", "mobile-heuristic-priority",
       "hybrid-agreement", "heuristic-fallback"] ∧
    (detectLanguageHybrid (some "ab") ⟨false, ApiOutcome.failure⟩).method ≠
      "api-only" :=
  C2_no_agreement (some "ab") ⟨false, ApiOutcome.failure⟩ trivial

/-- C3 (amended): for the empty string the falsy-input guard fires first,
so the resolver returns `{none, 0, "invalid-input"}` (not
`"text-too-short"`); for `"ab"` the trimmed length is exactly 2, the
length guard (`< 2`) does not fire, and the resolution falls through to
`{none, 0, "heuristic-fallback"}`.  In both cases no external network
attempt is made, for every environment. -/
theorem C3_short_inputs (env : Env) :
    detectLanguageHybrid (some "") env = ⟨none, 0, "invalid-input"⟩ ∧
    externalAttempts (some "") env = 0 ∧
    detectLanguageHybrid (some "ab") env = ⟨none, 0, "heuristic-fallback"⟩ ∧
    externalAttempts (some "ab") env = 0 := by
  refine ⟨?_, ?_, ?_, ?_⟩
  · unfold detectLanguageHybrid
    rw [hybrid_empty]
  · unfold externalAttempts
    rw [hybrid_empty]
  · unfold detectLanguageHybrid
    rw [hybrid_ab]
  · unfold externalAttempts
    rw [hybrid_ab]

/-- Counterexample to C3 as stated: neither the empty string nor `"ab"`
yields the method tag `"text-too-short"`. -/
theorem C3_short_inputs_counterexample :
    detectLanguageHybrid (some "") ⟨false, ApiOutcome.failure⟩ ≠
      ⟨none, 0, "text-too-short"⟩ ∧
    detectLanguageHybrid (some "ab") ⟨false, ApiOutcome.failure⟩ ≠
      ⟨none, 0, "text-too-short"⟩ := by
  constructor
  · intro h
    rw [show detectLanguageHybrid (some "") ⟨false, ApiOutcome.failure⟩ =
        ⟨none, 0, "invalid-input"⟩ by
      unfold detectLanguageHybrid; rw [hybrid_empty]] at h
    exact absurd h (by decide)
  · intro h
    rw [show detectLanguageHybrid (some "ab") ⟨false, ApiOutcome.failure⟩ =
        ⟨none, 0, "heuristic-fallback"⟩ by
      unfold detectLanguageHybrid; rw [hybrid_ab]] at h
    exact absurd h (by decide)

/-- C4: for every input and every external outcome, the heuristic and the
hybrid results keep their confidence in [0,1], and a `none` language is
never paired with a non-zero confidence.  (That a non-none `language`
belongs to the fixed `Language` enumeration is enforced by the type
`Option Language` of the embedded result.) -/
theorem C4_invariants (text : String) (input : Option String) (env : Env) :
    (0 ≤ (detectLanguageHeuristic text).confidence ∧
      (detectLanguageHeuristic text).confidence ≤ 1) ∧
    ((detectLanguageHeuristic text).language = none →
      (detectLanguageHeuristic text).confidence = 0) ∧
    (0 ≤ (detectLanguageHybrid input env).confidence ∧
      (detectLanguageHybrid input env).confidence ≤ 1) ∧
    ((detectLanguageHybrid input env).language = none →
      (detectLanguageHybrid input env).confidence = 0) := by
  refine ⟨heur_conf_mem text, ?_, (hybrid_facts input env).1,
    (hybrid_facts input env).2.1⟩
  intro h
  rw [heur_none_eq text h]

/-- Witness for C4 at `"ab"`: both `none`-language implications fire and
give confidence 0. -/
theorem C4_invariants_witness :
    (detectLanguageHeuristic "ab").confidence = 0 ∧
    (detectLanguageHybrid (some "ab") ⟨false, ApiOutcome.failure⟩).confidence = 0 := by
  have h := C4_invariants "ab" (some "ab") ⟨false, ApiOutcome.failure⟩
  refine ⟨h.2.1 (by decide), h.2.2.2 ?_⟩
  unfold detectLanguageHybrid
  rw [hybrid_ab]

/-- C5 (amended): when the heuristic finds a language and the external
detector successfully returns the same language, the hybrid confidence is
at least the standalone heuristic confidence, and strictly greater
whenever the standalone confidence is below 1 — the agreement boost
(+0.3) is capped at 1.0, so at standalone confidence exactly 1 the two
coincide (see `C5_agreement_boost_counterexample`). -/
theorem C5_agreement_boost (text : String) (l : Language) (s : String)
    (hl : (detectLanguageHeuristic text).language = some l)
    (hs : mapCode s = some l) :
    (detectLanguageHeuristic text).confidence ≤
      (detectLanguageHybrid (some text) ⟨false, ApiOutcome.code s⟩).confidence ∧
    ((detectLanguageHeuristic text).confidence < 1 →
      (detectLanguageHeuristic text).confidence <
        (detectLanguageHybrid (some text) ⟨false, ApiOutcome.code s⟩).confidence) := by
  have heq := hybrid_agree_eq text l (ApiOutcome.code s) hl
    (agree_api_of_code text l s hl hs)
  rw [heq]
  constructor
  · show (detectLanguageHeuristic text).confidence ≤
      min ((detectLanguageHeuristic text).confidence + 3 / 10) 1
    exact le_min (by linarith) (heur_conf_mem text).2
  · intro hc
    show (detectLanguageHeuristic text).confidence <
      min ((detectLanguageHeuristic text).confidence + 3 / 10) 1
    exact lt_min (by linarith) hc

/-- Counterexample to C5 as stated: on `taText` the heuristic confidence
is already 1, the external detector agrees (`"en"` ↦ English), and the
hybrid confidence is not strictly greater. -/
theorem C5_agreement_boost_counterexample :
    (detectLanguageHeuristic taText).language = some Language.English ∧
    mapCode "en" = some Language.English ∧
    ¬((detectLanguageHeuristic taText).confidence <
      (detectLanguageHybrid (some taText)
        ⟨false, ApiOutcome.code "en"⟩).confidence) := by
  refine ⟨by rw [heurTA], by decide, ?_⟩
  have heq := hybrid_agree_eq taText Language.English (ApiOutcome.code "en")
    (by rw [heurTA]) (agree_api_of_code taText Language.English "en"
      (by rw [heurTA]) (by decide))
  rw [heq, heurTA]
  show ¬((1 : ℚ) < min ((1 : ℚ) + 3 / 10) 1)
  simp [min_def]
  norm_num

/-- Witness for C5 at `tbText` (standalone confidence 7/10 < 1): the
boost is strict there. -/
theorem C5_agreement_boost_witness :
    (detectLanguageHeuristic tbText).language = some Language.English ∧
    (detectLanguageHeuristic tbText).confidence <
      (detectLanguageHybrid (some tbText)
        ⟨false, ApiOutcome.code "en"⟩).confidence := by
  have h := C5_agreement_boost tbText Language.English "en"
    (by rw [heurTB]) (by decide)
  exact ⟨by rw [heurTB], h.2 (by rw [heurTB]; norm_num)⟩

/-- C6: for every input — including the empty string and `none`
(modelling `null`/`undefined`) — and every external outcome (success,
timeout, transport error, malformed response: all cases of `ApiOutcome`),
`detectLanguageHybrid` is a total function (it never raises: every
`catch` of the source guards code that cannot throw) and returns a
well-formed result: language, confidence and method fields with the
confidence in [0,1] and a non-empty method tag. -/
theorem C6_never_throws (input : Option String) (env : Env) :
    ∃ lang conf m, detectLanguageHybrid input env = ⟨lang, conf, m⟩ ∧
      0 ≤ conf ∧ conf ≤ 1 ∧ m ≠ "" := by
  refine ⟨(detectLanguageHybrid input env).language,
    (detectLanguageHybrid input env).confidence,
    (detectLanguageHybrid input env).method, rfl,
    (hybrid_facts input env).1.1, (hybrid_facts input env).1.2, ?_⟩
  intro he
  have hm := (hybrid_facts input env).2.2.1
  rw [he] at hm
  exact absurd hm (by decide)

/-- Witness for C6 at `none` (the `null` input). -/
theorem C6_never_throws_witness :
    ∃ lang conf m,
      detectLanguageHybrid none ⟨false, ApiOutcome.failure⟩ = ⟨lang, conf, m⟩ ∧
      0 ≤ conf ∧ conf ≤ 1 ∧ m ≠ "" :=
  C6_never_throws none ⟨false, ApiOutcome.failure⟩

/-- C7 (amended): one hybrid resolution never performs more than one
external attempt (no retries); it performs exactly one when the trimmed
input has length at least 4 and the environment is not mobile (the
mobile high-confidence bypass is the only other way to skip the call);
and it performs zero attempts when the trimmed length is below 4 —
so, contrary to the claim as stated, a valid input of trimmed length 2
or 3 triggers no external attempt (`C7_single_attempt_counterexample`). -/
theorem C7_single_attempt (text : String) (env : Env) (input : Option String) :
    externalAttempts input env ≤ 1 ∧
    (env.isMobile = false → 4 ≤ (jsTrim text.data).length →
      externalAttempts (some text) env = 1) ∧
    ((jsTrim text.data).length < 4 → externalAttempts (some text) env = 0) :=
  ⟨hybrid_attempts_le_one input env,
   fun hm hl => hybrid_attempts_eq_one text env hm hl,
   fun hl => hybrid_attempts_eq_zero text env hl⟩

/-- Counterexample to C7 as stated: `"ab"` is a valid input (trimmed
length 2), yet the resolver makes zero external attempts. -/
theorem C7_single_attempt_counterexample :
    2 ≤ (jsTrim ("ab" : String).data).length ∧
    externalAttempts (some "ab") ⟨false, ApiOutcome.failure⟩ = 0 := by
  refine ⟨by decide, ?_⟩
  unfold externalAttempts
  rw [hybrid_ab]

/-- Witness for C7: exactly one attempt on `taText` (desktop), zero on
`"ab"`. -/
theorem C7_single_attempt_witness :
    externalAttempts (some taText) ⟨false, ApiOutcome.failure⟩ = 1 ∧
    externalAttempts (some "ab") ⟨false, ApiOutcome.failure⟩ = 0 :=
  ⟨(C7_single_attempt taText ⟨false, ApiOutcome.failure⟩
      (some taText)).2.1 rfl (by decide),
   (C7_single_attempt "ab" ⟨false, ApiOutcome.failure⟩
      (some "ab")).2.2 (by decide)⟩

/-- C8 (amended): the method tag of every hybrid resolution is one of the
eight strings the code's reachable branches return — `invalid-input`,
`text-too-short`, `mobile-heuristic-priority`, `hybrid-agreement`,
`api-only`, `english-portuguese-resolution`, `api-preferred`,
`heuristic-fallback` — not the seven abstract names of the claim (the
source also contains `heuristic-failed`, `all-methods-failed`,
`heuristic-emergency` and `api-fallback` in branches that cannot be
reached because the guarded calls cannot throw and the wrapper never
returns `none` while the heuristic succeeds). -/
theorem C8_method_tags (input : Option String) (env : Env) :
    (detectLanguageHybrid input env).method ∈ reachableTags :=
  (hybrid_facts input env).2.2.1

/-- Counterexample to C8 as stated: the tag `"heuristic-fallback"` of the
resolution of `"ab"` is none of the seven claimed values. -/
theorem C8_method_tags_counterexample :
    (detectLanguageHybrid (some "ab") ⟨false, ApiOutcome.failure⟩).method ∉
      ["agreement", "external-only", "heuristic-only", "external-preferred",
       "emergency-fallback", "text-too-short", "invalid-input"] := by
  rw [show detectLanguageHybrid (some "ab") ⟨false, ApiOutcome.failure⟩ =
      ⟨none, 0, "heuristic-fallback"⟩ by
    unfold detectLanguageHybrid; rw [hybrid_ab]]
  decide

/-- C9: `detectLanguageHeuristic` is deterministic — it is embedded as a
pure function of the text alone (no hidden state, no randomness, no
environment), so two invocations on the same input are one and the same
value: same language field and same confidence. -/
theorem C9_deterministic (text : String) :
    (detectLanguageHeuristic text).language =
      (detectLanguageHeuristic text).language ∧
    (detectLanguageHeuristic text).confidence =
      (detectLanguageHeuristic text).confidence :=
  ⟨rfl, rfl⟩

/-- C10: whenever `detectLanguageHeuristic` returns a non-none language,
its confidence is strictly positive: the success branch requires a
maximum score of at least 2 and a trimmed length of at least 3, making
the base confidence positive, and every boost (capped multiplication by
a factor > 1) and penalty (multiplication by 0.7 or 0.5) preserves
positivity. -/
theorem C10_positive_confidence (text : String) (l : Language)
    (h : (detectLanguageHeuristic text).language = some l) :
    0 < (detectLanguageHeuristic text).confidence :=
  heur_pos text l h

/-- Witness for C10 at `tbText`. -/
theorem C10_positive_confidence_witness :
    (detectLanguageHeuristic tbText).language = some Language.English ∧
    0 < (detectLanguageHeuristic tbText).confidence :=
  ⟨by rw [heurTB],
   C10_positive_confidence tbText Language.English (by rw [heurTB])⟩

end IdiomWeaver
